import Mathlib

/-
Verification of the skillFit matching/ranking engine.

The repository ships two implementations of the engine:
  * src/backend/backends.py            (the plain backend)
  * src/backend/backends_bulletproof.py (the bulletproof backend)
This file gives a shallow embedding of both engines and settles the spec
claims against them.  Python floats are modelled by rationals; the external
fuzzywuzzy similarity function is an abstract parameter `simFn` returning a
score on the 0-100 scale (backends_bulletproof.py itself defines a fallback
implementation, modelled below as `fallbackFuzz`).
-/

namespace SkillFit

/-- Model of Python str.lower() (ASCII case folding, character by character). -/
def toLowerStr (s : String) : String := ⟨s.data.map Char.toLower⟩

/-- Drop leading and trailing whitespace from a character list. -/
def trimChars (l : List Char) : List Char :=
  ((l.dropWhile Char.isWhitespace).reverse.dropWhile Char.isWhitespace).reverse

/-- Model of Python str.strip(): remove leading and trailing whitespace. -/
def trimStr (s : String) : String := ⟨trimChars s.data⟩

/-- Split a character list at every comma; like Python str.split(","), the
empty input yields one empty token and separators are not merged. -/
def splitComma : List Char → List (List Char)
  | [] => [[]]
  | c :: cs =>
    if c = ',' then [] :: splitComma cs
    else
      match splitComma cs with
      | [] => [[c]]
      | t :: ts => (c :: t) :: ts

/-- Model of Python s.split(","). -/
def splitCommaStr (s : String) : List String := (splitComma s.data).map (fun l => ⟨l⟩)

/-- Model of Python title.replace(" ", "-"): replace every space by a hyphen. -/
def replaceSpaceDash (s : String) : String :=
  ⟨s.data.map (fun c => if c = ' ' then '-' else c)⟩

/-- Model of Python `s.lower().strip()` as performed on query tokens by
backends.py lines 58-60. -/
def normalizeTok (s : String) : String := trimStr (toLowerStr s)

/-- One internship listing after catalog load: textual fields are strings and
the skills column has been split into a list of tokens (backends.py lines 17-22,
backends_bulletproof.py lines 88-117). -/
structure Listing where
  company : String
  internship_title : String
  field : String
  location : String
  skills : List String
deriving DecidableEq

/-- A listing annotated with its match_score, as produced by the per-request
scoring pass (`df_loc["match_score"] = df_loc.apply(calculate_score, axis=1)`). -/
abbrev Scored := Listing × ℚ

/-- The identity key used by deduplication: (company, internship_title, location). -/
abbrev IdKey := String × String × String

/-- Identity key of a scored row (backends.py line 104). -/
def skey (s : Scored) : IdKey := (s.1.company, s.1.internship_title, s.1.location)

/-- Size of `set(student_skills) & set(row_skills)` (backends.py line 69):
the number of distinct query-skill tokens that occur among the row skills. -/
def matchCount (ss rs : List String) : ℕ :=
  (ss.dedup.filter (fun s => decide (s ∈ rs))).length

/-- Python round(x, 3) modelled on rationals: scale by 1000, round to an
integer, scale back.  (Python uses round-half-to-even on binary floats; the
half-way tie direction is irrelevant to every claim proved here.) -/
def round3 (q : ℚ) : ℚ := ((round (q * 1000) : ℤ) : ℚ) / 1000

/-- Skill component of the plain scorer (backends.py lines 68-70):
`(match_count / max(len(student_skills), 1)) * 0.6`, guarded by
`if student_skills:`. -/
def skillComponent (ss rs : List String) : ℚ :=
  if ss ≠ [] then
    ((matchCount ss rs : ℚ) / ((max ss.length 1 : ℕ) : ℚ)) * (6 / 10)
  else 0

/-- Field component of the plain scorer (backends.py lines 72-75):
if the query field is non-empty, add 0.4 exactly when
`fuzz.ratio(row["field"].lower(), student_field) >= 80`. -/
def fieldComponent (simFn : String → String → ℕ) (sf lf : String) : ℚ :=
  if sf ≠ "" then
    (if 80 ≤ simFn (toLowerStr lf) sf then 4 / 10 else 0)
  else 0

/-- calculate_score of backends.py (lines 65-76): skill component plus field
component, rounded to 3 decimal places.  Note the plain scorer does NOT clamp. -/
def calculate_score (simFn : String → String → ℕ) (ss : List String) (sf : String)
    (row : Listing) : ℚ :=
  round3 (skillComponent ss row.skills + fieldComponent simFn sf row.field)

/-- Value stored in a raw field cell of the dataframe, as seen by the scorers.
`fStr` is an ordinary string; `fNum n` a numeric cell (str() renders its
decimal form); `fNa` covers None and float NaN cells (for which
`pd.isna(value)` holds). -/
inductive FieldVal where
  | fStr (s : String)
  | fNum (n : ℤ)
  | fNa
deriving DecidableEq

/-- Value stored in a raw skills cell: a list of string tokens, an unsplit
string, or anything else (the bulletproof scorer defaults the latter to []). -/
inductive SkillsVal where
  | sList (l : List String)
  | sStr (s : String)
  | sOther
deriving DecidableEq

/-- The projection of a dataframe row read by calculate_score_safely. -/
structure SafeRow where
  field : FieldVal
  skills : SkillsVal
deriving DecidableEq

/-- The projection of a dataframe row read by the plain calculate_score:
after the plain load, skills are already lists, but a field cell can still be
a non-string value (e.g. a NaN float from a CSV hole). -/
structure PlainRow where
  field : FieldVal
  skills : List String
deriving DecidableEq

/-- safe_string_operation of backends_bulletproof.py (lines 170-182) with the
default "lower" operation: None/NaN become "", any other value is stringified
and lowercased; it never raises. -/
def safe_string_operation : FieldVal → String
  | .fStr s => toLowerStr s
  | .fNum n => toLowerStr (toString n)
  | .fNa => ""

/-- Python `value.lower()` as used by the plain scorer on a raw field cell
(backends.py line 73): succeeds only on strings, raises AttributeError on
numeric or NaN cells. -/
def lowerPy : FieldVal → Except Unit String
  | .fStr s => .ok (toLowerStr s)
  | _ => .error ()

/-- Skills splitting used by the bulletproof scorer on an unsplit string cell
(backends_bulletproof.py line 205): split on ",", keep tokens whose strip is
non-empty, store them stripped and lowercased. -/
def splitSkills (s : String) : List String :=
  (splitCommaStr s).filterMap (fun t =>
    let u := trimStr t
    if u = "" then none else some (toLowerStr u))

/-- Normalization of the raw skills cell inside calculate_score_safely
(backends_bulletproof.py lines 203-207). -/
def parseRowSkills : SkillsVal → List String
  | .sList l => l
  | .sStr s => splitSkills s
  | .sOther => []

/-- Skill component of the bulletproof scorer (backends_bulletproof.py lines
201-216): clean both token lists with safe_string_operation (lowercasing) and
divide the distinct-intersection size by the cleaned query length. -/
def skillComponentSafe (ss : List String) (sv : SkillsVal) : ℚ :=
  if ss ≠ [] then
    let ssc := ss.map toLowerStr
    let rsc := (parseRowSkills sv).map toLowerStr
    if ssc ≠ [] then ((matchCount ssc rsc : ℚ) / ((ssc.length : ℕ) : ℚ)) * (6 / 10)
    else 0
  else 0

/-- Field component of the bulletproof scorer (backends_bulletproof.py lines
219-227): the row field is stringified and lowercased; if it is non-empty the
similarity against the lowercased query field decides a binary 0.4. -/
def fieldComponentSafe (simFn : String → String → ℕ) (sf : String) (fv : FieldVal) : ℚ :=
  if sf ≠ "" then
    let rf := safe_string_operation fv
    if rf ≠ "" then (if 80 ≤ simFn rf (toLowerStr sf) then 4 / 10 else 0) else 0
  else 0

/-- calculate_score_safely of backends_bulletproof.py (lines 195-231):
component sum clamped to [0,1] and rounded to 3 decimals; total on every raw
row (all its sub-operations are exception-free). -/
def calculate_score_safely (simFn : String → String → ℕ) (ss : List String) (sf : String)
    (row : SafeRow) : ℚ :=
  round3 (max 0 (min 1 (skillComponentSafe ss row.skills
    + fieldComponentSafe simFn sf row.field)))

/-- The plain calculate_score evaluated with Python exception semantics over a
raw row: the skill block cannot raise (skills are lists after the plain load),
but `row["field"].lower()` raises on a non-string cell whenever the query has
a non-empty field. -/
def calculate_scoreE (simFn : String → String → ℕ) (ss : List String) (sf : String)
    (row : PlainRow) : Except Unit ℚ :=
  let base := skillComponent ss row.skills
  match (if sf ≠ "" then
          (lowerPy row.field).map (fun rf => if 80 ≤ simFn rf sf then (4 : ℚ) / 10 else 0)
         else .ok 0) with
  | .error e => .error e
  | .ok fc => .ok (round3 (base + fc))

/-- df_loc.apply(calculate_score, axis=1) of backends.py (line 86) with
exception propagation: a raising row aborts the whole batch. -/
def scoreBatchPlain (simFn : String → String → ℕ) (ss : List String) (sf : String)
    (rows : List PlainRow) : Except Unit (List ℚ) :=
  rows.mapM (calculate_scoreE simFn ss sf)

/-- The fallback fuzz.ratio that backends_bulletproof.py itself installs when
fuzzywuzzy is missing (lines 20-23): 100 on case-insensitive equality, else 0. -/
def fallbackFuzz (a b : String) : ℕ :=
  if toLowerStr a = toLowerStr b then 100 else 0

/-- A trivial similarity function used to instantiate witnesses whose claims
do not depend on the similarity values. -/
def simFn0 (_a _b : String) : ℕ := 0

/-! ## Sorting

backends_bulletproof.py ranks with `df.nlargest(n, "match_score")`, whose
pandas semantics (keep="first", internal mergesort) are: the first n rows in
descending value order, rows of equal value kept in their original order.
This is the stable descending sort below followed by take.

backends.py ranks with `df_loc.sort_values(by="match_score",
ascending=False)`, whose default quicksort does NOT guarantee any order among
equal values, so the plain pipeline is parametrized by an arbitrary sort
implementation; an admissible implementation only has to permute its input
into descending match_score order. -/

/-- Insert a scored row into a descending-sorted list, in front of the first
strictly smaller row (so rows inserted later land after their ties). -/
def insertDesc (a : Scored) : List Scored → List Scored
  | [] => [a]
  | b :: l => if b.2 ≤ a.2 then a :: b :: l else b :: insertDesc a l

/-- Stable descending insertion sort on match_score. -/
def sortDescStable : List Scored → List Scored
  | [] => []
  | a :: l => insertDesc a (sortDescStable l)

/-- pandas nlargest(n, "match_score") with keep="first". -/
def nlargest (n : ℕ) (l : List Scored) : List Scored := (sortDescStable l).take n

/-- An admissible but unstable behaviour of sort_values(ascending=False):
descending order with every run of equal scores reversed.  Used to witness
that the plain ranking does not guarantee stability. -/
def revSortDesc (l : List Scored) : List Scored := sortDescStable l.reverse

/-- Whether a descending sort implementation output is one the pandas
sort_values contract allows for a given input: a permutation, descending on
match_score.  Tie order is unconstrained. -/
def ValidSortDesc (out inp : List Scored) : Prop :=
  out.Perm inp ∧ out.Pairwise (fun a b => b.2 ≤ a.2)

/-! ## Output records and deduplication -/

/-- One record of the final recommendations array. -/
structure RecOut where
  company : String
  internship_title : String
  field : String
  location : String
  skills : String
  match_score : ℚ
  apply_link : String
deriving DecidableEq

/-- Identity key of an output record. -/
def recKeyOut (r : RecOut) : IdKey := (r.company, r.internship_title, r.location)

/-- Python ", ".join(skills). -/
def joinSkills (l : List String) : String := String.intercalate ", " l

/-- apply_link synthesis of backends.py line 109. -/
def applyLink (title : String) : String :=
  "https://company.com/apply/" ++ replaceSpaceDash title

/-- Formatting applied by the plain dedup loop to a surviving record
(backends.py lines 107-109): join the skills, attach the link; the key fields
are passed through unchanged. -/
def formatPlain (s : Scored) : RecOut :=
  { company := s.1.company
    internship_title := s.1.internship_title
    field := s.1.field
    location := s.1.location
    skills := joinSkills s.1.skills
    match_score := s.2
    apply_link := applyLink s.1.internship_title }

/-- Deduplication loop of backends.py (lines 100-112): iterate in arrival
order, keep the first occurrence of each identity key, format survivors. -/
def dedupPlainAux (seen : List IdKey) : List Scored → List RecOut
  | [] => []
  | r :: rs =>
    if skey r ∈ seen then dedupPlainAux seen rs
    else formatPlain r :: dedupPlainAux (skey r :: seen) rs

/-- Formatting applied by the bulletproof result loop to a record
(backends_bulletproof.py lines 310-318): every textual field is passed through
safe_string_operation, which lowercases it; the identity key is computed from
these lowercased values. -/
def formatSafe (s : Scored) : RecOut :=
  { company := toLowerStr s.1.company
    internship_title := toLowerStr s.1.internship_title
    field := toLowerStr s.1.field
    location := toLowerStr s.1.location
    skills := joinSkills s.1.skills
    match_score := s.2
    apply_link := "https://company.com/apply/"
      ++ replaceSpaceDash (toLowerStr s.1.internship_title) }

/-- Deduplication loop of backends_bulletproof.py (lines 303-327): like the
plain loop but on formatted (lowercased) keys.  Its caller feeds it only
results[:top_n]. -/
def dedupSafeAux (seen : List IdKey) : List Scored → List RecOut
  | [] => []
  | r :: rs =>
    if recKeyOut (formatSafe r) ∈ seen then dedupSafeAux seen rs
    else formatSafe r :: dedupSafeAux (recKeyOut (formatSafe r) :: seen) rs

/-! ## The plain pipeline (backends.py get_recommendations, lines 56-112) -/

/-- Case-insensitive substring containment, modelling
`Series.str.contains(loc, case=False, na=False)` on a plain substring pattern
(the pattern is treated as a regular expression by pandas; every location
string used by the engine is free of regex metacharacters, for which the two
readings agree). -/
def containsCI (hay pat : String) : Bool :=
  ((toLowerStr hay).data.tails.any (fun t => (toLowerStr pat).data.isPrefixOf t))

/-- Request model of backends.py (lines 38-44), restricted to the fields the
engine reads.  top_n is modelled as a natural number: pydantic admits negative
integers, but a negative count only triggers the pandas head() tail-dropping
corner which no claim exercises. -/
structure RecommendationRequest where
  skills : List String
  locations : List String
  field : String
  top_n : ℕ
deriving DecidableEq

/-- Per-location selection of backends.py (lines 86-98): sort the scored
bucket descending, take top_n, and if that is short, sample the rows of the
bucket whose identity key is not already selected.  `sortImpl` stands for
sort_values, `sampler k pool` for pool.sample(k) (pandas sampling without
replacement from the ambient numpy generator). -/
def selectLoc (sortImpl : List Scored → List Scored)
    (sampler : ℕ → List Scored → List Scored)
    (top_n : ℕ) (scored : List Scored) : List Scored :=
  let selected := (sortImpl scored).take top_n
  if selected.length < top_n then
    let remaining := scored.filter (fun r => decide (skey r ∉ selected.map skey))
    if remaining ≠ [] then
      selected ++ sampler (min (top_n - selected.length) remaining.length) remaining
    else selected
  else selected

/-- The per-location loop of backends.py (lines 81-98), accumulating selected
rows location by location; an empty filtered bucket is skipped. -/
def plainLoop (sortImpl : List Scored → List Scored)
    (sampler : ℕ → List Scored → List Scored)
    (simFn : String → String → ℕ) (catalog : List Listing)
    (ss : List String) (sf : String) (top_n : ℕ) :
    List String → List Scored → List Scored
  | [], acc => acc
  | loc :: locs, acc =>
    let df_loc := catalog.filter (fun row => containsCI row.location loc)
    if df_loc = [] then plainLoop sortImpl sampler simFn catalog ss sf top_n locs acc
    else plainLoop sortImpl sampler simFn catalog ss sf top_n locs
      (acc ++ selectLoc sortImpl sampler top_n
        (df_loc.map (fun row => (row, calculate_score simFn ss sf row))))

/-- get_recommendations of backends.py (lines 56-112): normalize the query,
loop over the requested locations, then deduplicate the accumulator.  With no
requested locations the loop body never runs. -/
def get_recommendations (sortImpl : List Scored → List Scored)
    (sampler : ℕ → List Scored → List Scored)
    (simFn : String → String → ℕ) (catalog : List Listing)
    (req : RecommendationRequest) : List RecOut :=
  let student_skills := req.skills.map normalizeTok
  let student_field := normalizeTok req.field
  let student_locations := req.locations.map normalizeTok
  dedupPlainAux []
    (plainLoop sortImpl sampler simFn catalog student_skills student_field req.top_n
      student_locations [])

/-! ## The bulletproof pipeline (backends_bulletproof.py get_recommendations,
lines 254-333) -/

/-- Request model of backends_bulletproof.py; top_n is the raw client integer. -/
structure SafeRequest where
  skills : List String
  locations : List String
  field : String
  top_n : ℤ
deriving DecidableEq

/-- top_n clamping of backends_bulletproof.py line 261:
`max(1, min(20, req.top_n))`. -/
def clampTopN (n : ℤ) : ℤ := max 1 (min 20 n)

/-- View of a post-load dataframe row as the raw row the bulletproof scorer
reads: fields are strings, skills a list. -/
def Listing.toRaw (l : Listing) : SafeRow := ⟨.fStr l.field, .sList l.skills⟩

/-- The per-location loop of backends_bulletproof.py (lines 287-298): each
non-empty bucket contributes its nlargest(top_n) rows; no backfill. -/
def safeLoop (simFn : String → String → ℕ) (catalog : List Listing)
    (ss : List String) (sf : String) (top_n : ℕ) :
    List String → List Scored → List Scored
  | [], acc => acc
  | loc :: locs, acc =>
    let df_loc := catalog.filter (fun row => containsCI row.location loc)
    if df_loc = [] then safeLoop simFn catalog ss sf top_n locs acc
    else safeLoop simFn catalog ss sf top_n locs
      (acc ++ nlargest top_n
        (df_loc.map (fun row => (row, calculate_score_safely simFn ss sf row.toRaw))))

/-- The pre-dedup accumulator of backends_bulletproof.py (lines 271-301):
with no requested locations, score the whole catalog, take nlargest(2*top_n)
and then head(top_n); otherwise run the per-location loop. -/
def safeResults (simFn : String → String → ℕ) (catalog : List Listing)
    (req : SafeRequest) : List Scored :=
  let student_skills := (req.skills.filter (fun s => s ≠ "")).map toLowerStr
  let student_field := toLowerStr (toLowerStr req.field)
  let student_locations := (req.locations.filter (fun s => s ≠ "")).map toLowerStr
  let top_n := (clampTopN req.top_n).toNat
  if student_locations = [] then
    (nlargest (top_n * 2)
      (catalog.map (fun row =>
        (row, calculate_score_safely simFn student_skills student_field row.toRaw)))).take top_n
  else
    safeLoop simFn catalog student_skills student_field top_n student_locations []

/-- get_recommendations of backends_bulletproof.py (lines 254-333): build the
accumulator, then deduplicate — but only over results[:top_n] (line 307). -/
def get_recommendations_safe (simFn : String → String → ℕ) (catalog : List Listing)
    (req : SafeRequest) : List RecOut :=
  dedupSafeAux [] ((safeResults simFn catalog req).take (clampTopN req.top_n).toNat)

/-! ## Catalog loading -/

/-- A raw CSV row: any cell may be missing (pandas NaN). -/
structure CsvRow where
  company : Option String
  internship_title : Option String
  field : Option String
  location : Option String
  skills : Option String
deriving DecidableEq

/-- The observable outcome of trying to read the catalog file. -/
inductive CsvRead where
  | missing
  | corrupt
  | ok (rows : List CsvRow)

/-- Mock catalog generator of backends_bulletproof.py (lines 58-81): 50 rows
cycling through fixed companies, fields, locations and skill sets. -/
def create_mock_data : List CsvRow :=
  (List.range 50).map (fun i =>
    { company := some ((["TechCorp", "DataSoft", "WebDev Inc", "AI Solutions",
        "CloudTech"]).getD (i % 5) "")
      internship_title := some ("Software Intern " ++ toString (i + 1))
      field := some ((["Software Development", "Data Science", "Web Development",
        "Machine Learning"]).getD (i % 4) "")
      location := some ((["New York", "San Francisco", "Boston", "Seattle",
        "Remote"]).getD (i % 5) "")
      skills := some (String.intercalate ","
        (([["python", "django", "postgresql"], ["javascript", "react", "node.js"],
           ["java", "spring", "mysql"], ["python", "pandas", "machine learning"],
           ["html", "css", "bootstrap"]]).getD (i % 5) [])) })

/-- load_data_safely of backends_bulletproof.py (lines 40-56): a missing file
and a raising read both fall back to the mock data; a successful read returns
the file rows. -/
def load_data_safely : CsvRead → List CsvRow
  | .missing => create_mock_data
  | .corrupt => create_mock_data
  | .ok rows => rows

/-- The module-level `pd.read_csv(DATA_FILE)` of backends.py (line 14): no
handler anywhere, so a missing or unreadable file raises out of the import and
kills the process. -/
def loadPlain : CsvRead → Except Unit (List CsvRow)
  | .ok rows => .ok rows
  | _ => .error ()

/-- Row normalization of backends_bulletproof.py (lines 91-117): default every
missing textual cell, and split the skills cell (None, "nan" and "None" cells
become the empty skill list). -/
def normalizeRow (r : CsvRow) : Listing :=
  { company := r.company.getD "Company"
    internship_title := r.internship_title.getD "Internship"
    field := r.field.getD "General"
    location := r.location.getD "Remote"
    skills := match r.skills with
      | none => []
      | some s => if s = "nan" ∨ s = "None" then [] else splitSkills s }

/-- The minimal one-listing catalog installed by the outer initialization
handler of backends_bulletproof.py (lines 121-130) if even normalization
fails; unreachable in this pure model but part of the fallback design. -/
def fallbackCatalog : List Listing :=
  [{ company := "TechCorp", internship_title := "Software Intern",
     field := "Software Development", location := "Remote",
     skills := ["python", "javascript"] }]

/-! ## Samplers used to instantiate witnesses.  A sampler models
`pool.sample(k)`: any function returning k of the pool rows without
replacement is admissible. -/

/-- A sampler that takes the first k pool rows. -/
def sampler0 (k : ℕ) (pool : List Scored) : List Scored := pool.take k

/-- A sampler that takes the last k pool rows, in reverse order. -/
def samplerRev (k : ℕ) (pool : List Scored) : List Scored := pool.reverse.take k

/-! ## Concrete instances used by counterexamples and witnesses -/

/-- A listing in Boston with no skills listed. -/
def cexA : Listing :=
  { company := "Acme", internship_title := "Intern A", field := "",
    location := "Boston", skills := [] }

/-- A second Boston listing, distinct key, same (zero) score profile. -/
def cexB : Listing :=
  { company := "Bcme", internship_title := "Intern B", field := "",
    location := "Boston", skills := [] }

/-- A Denver listing. -/
def cexD : Listing :=
  { company := "Acme", internship_title := "Intern D", field := "",
    location := "Denver", skills := [] }

/-- Two-listing catalog whose rows tie on every query. -/
def cexCatalog : List Listing := [cexA, cexB]

/-- The scored Boston bucket produced for a query with no skills and no field:
both rows score round3 0 = 0. -/
def cexBucket : List Scored :=
  cexCatalog.map (fun row => (row, calculate_score simFn0 [] "" row))

/-- Plain request hitting the Boston bucket with default top_n 5. -/
def cexReq : RecommendationRequest :=
  { skills := [], locations := ["boston"], field := "", top_n := 5 }

/-- Plain request with an empty locations list. -/
def cexReqNoLoc : RecommendationRequest :=
  { skills := [], locations := [], field := "", top_n := 5 }

/-- Bulletproof two-location catalog. -/
def cexCatalogS : List Listing := [cexA, cexD]

/-- Bulletproof request over two locations with top_n 1. -/
def cexReqS : SafeRequest :=
  { skills := [], locations := ["boston", "denver"], field := "", top_n := 1 }

/-- Bulletproof request with an empty locations list. -/
def cexReqSNoLoc : SafeRequest :=
  { skills := [], locations := [], field := "", top_n := 5 }

/-- A 21-listing Boston catalog with pairwise distinct identity keys. -/
def catalog21 : List Listing :=
  (List.range 21).map (fun i =>
    { company := "c", internship_title := "t" ++ toString i, field := "f",
      location := "Boston", skills := [] })

/-- A plain request asking for 21 results: backends.py applies it as is. -/
def req21 : RecommendationRequest :=
  { skills := [], locations := ["boston"], field := "", top_n := 21 }

/-- A well-formed raw row for the plain scorer. -/
def goodRow : PlainRow := { field := .fStr "Data Science", skills := ["python"] }

/-- A raw row whose field cell is numeric (e.g. a NaN/float CSV hole): calling
.lower() on it raises in the plain scorer. -/
def badRow : PlainRow := { field := .fNum 3, skills := [] }

/-! ## Basic lemmas about the scorer components -/

theorem matchCount_le (ss rs : List String) : matchCount ss rs ≤ ss.length :=
  (List.length_filter_le _ _).trans (List.dedup_sublist ss).length_le

theorem skillComponent_nonneg (ss rs : List String) : 0 ≤ skillComponent ss rs := by
  unfold skillComponent
  split
  · positivity
  · exact le_refl 0

theorem skillComponent_le (ss rs : List String) : skillComponent ss rs ≤ 6 / 10 := by
  unfold skillComponent
  split
  · have hm : (matchCount ss rs : ℚ) ≤ ((max ss.length 1 : ℕ) : ℚ) := by
      exact_mod_cast (matchCount_le ss rs).trans (le_max_left _ _)
    have hd : (0 : ℚ) < ((max ss.length 1 : ℕ) : ℚ) := by
      exact_mod_cast Nat.lt_of_lt_of_le Nat.one_pos (le_max_right _ _)
    have h1 : (matchCount ss rs : ℚ) / ((max ss.length 1 : ℕ) : ℚ) ≤ 1 :=
      (div_le_one hd).mpr hm
    have h2 := mul_le_mul_of_nonneg_right h1 (by norm_num : (0 : ℚ) ≤ 6 / 10)
    simpa using h2
  · norm_num

theorem fieldComponent_nonneg (simFn : String → String → ℕ) (sf lf : String) :
    0 ≤ fieldComponent simFn sf lf := by
  unfold fieldComponent
  split
  · split <;> norm_num
  · exact le_refl 0

theorem fieldComponent_le (simFn : String → String → ℕ) (sf lf : String) :
    fieldComponent simFn sf lf ≤ 4 / 10 := by
  unfold fieldComponent
  split
  · split <;> norm_num
  · norm_num

theorem skillComponentSafe_nonneg (ss : List String) (sv : SkillsVal) :
    0 ≤ skillComponentSafe ss sv := by
  unfold skillComponentSafe
  split
  · dsimp only
    split
    · positivity
    · exact le_refl 0
  · exact le_refl 0

theorem round3_bounds (q : ℚ) (h0 : 0 ≤ q) (h1 : q ≤ 1) :
    ∃ k : ℤ, 0 ≤ k ∧ k ≤ 1000 ∧ round3 q = (k : ℚ) / 1000 := by
  refine ⟨round (q * 1000), ?_, ?_, rfl⟩
  · rw [round_eq]
    exact Int.floor_nonneg.mpr (by nlinarith)
  · rw [round_eq]
    have h2 : q * 1000 + 1 / 2 ≤ (1000 : ℚ) + 1 / 2 := by nlinarith
    have h3 := Int.floor_mono h2
    have h4 : ⌊(1000 : ℚ) + 1 / 2⌋ = 1000 := by norm_num
    omega

theorem round3_mem_unit (q : ℚ) (h0 : 0 ≤ q) (h1 : q ≤ 1) :
    0 ≤ round3 q ∧ round3 q ≤ 1 := by
  obtain ⟨k, hk0, hk1, hq⟩ := round3_bounds q h0 h1
  rw [hq]
  constructor
  · apply div_nonneg _ (by norm_num)
    exact_mod_cast hk0
  · rw [div_le_one (by norm_num)]
    exact_mod_cast hk1

/-! ## Lemmas about the stable descending sort -/

theorem insertDesc_perm (a : Scored) (l : List Scored) :
    (insertDesc a l).Perm (a :: l) := by
  induction l with
  | nil => exact List.Perm.refl _
  | cons b t ih =>
    unfold insertDesc
    split
    · exact List.Perm.refl _
    · exact (ih.cons b).trans (List.Perm.swap a b t)

theorem sortDescStable_perm (l : List Scored) : (sortDescStable l).Perm l := by
  induction l with
  | nil => exact List.Perm.refl _
  | cons a t ih =>
    exact (insertDesc_perm a (sortDescStable t)).trans (ih.cons a)

theorem insertDesc_pairwise (a : Scored) (l : List Scored)
    (h : l.Pairwise (fun x y => y.2 ≤ x.2)) :
    (insertDesc a l).Pairwise (fun x y => y.2 ≤ x.2) := by
  induction l with
  | nil => simp [insertDesc]
  | cons b t ih =>
    unfold insertDesc
    rw [List.pairwise_cons] at h
    split
    · rename_i hba
      refine List.pairwise_cons.mpr ⟨?_, List.pairwise_cons.mpr h⟩
      intro x hx
      rcases List.mem_cons.mp hx with h1 | h1
      · exact h1 ▸ hba
      · exact (h.1 x h1).trans hba
    · rename_i hba
      refine List.pairwise_cons.mpr ⟨?_, ih h.2⟩
      intro x hx
      rcases List.mem_cons.mp ((insertDesc_perm a t).mem_iff.mp hx) with h1 | h1
      · exact h1 ▸ le_of_not_le hba
      · exact h.1 x h1

theorem sortDescStable_pairwise (l : List Scored) :
    (sortDescStable l).Pairwise (fun x y => y.2 ≤ x.2) := by
  induction l with
  | nil => simp [sortDescStable]
  | cons a t ih => exact insertDesc_pairwise a (sortDescStable t) ih

theorem filter_insertDesc (v : ℚ) (a : Scored) (l : List Scored) :
    (insertDesc a l).filter (fun x => decide (x.2 = v))
      = if a.2 = v then a :: l.filter (fun x => decide (x.2 = v))
        else l.filter (fun x => decide (x.2 = v)) := by
  induction l with
  | nil =>
    by_cases hav : a.2 = v <;> simp [insertDesc, hav]
  | cons b t ih =>
    unfold insertDesc
    split
    · by_cases hav : a.2 = v <;> simp [List.filter_cons, hav]
    · rename_i hba
      by_cases hav : a.2 = v
      · have hbv : ¬(b.2 = v) := fun hbv => hba (by rw [hbv, hav])
        simp [List.filter_cons, hbv, ih, hav]
      · simp [List.filter_cons, ih, hav]

/-- Stability of the stable sort: rows of any fixed score keep their relative
input order (the filtered subsequences agree). -/
theorem filter_sortDescStable (v : ℚ) (l : List Scored) :
    (sortDescStable l).filter (fun x => decide (x.2 = v))
      = l.filter (fun x => decide (x.2 = v)) := by
  induction l with
  | nil => rfl
  | cons a t ih =>
    show (insertDesc a (sortDescStable t)).filter _ = _
    rw [filter_insertDesc]
    by_cases hav : a.2 = v <;> simp [List.filter_cons, hav, ih]

theorem filter_take_prefix {α : Type} (p : α → Bool) (n : ℕ) (l : List α) :
    ∃ k, (l.take n).filter p = (l.filter p).take k := by
  induction l generalizing n with
  | nil => exact ⟨0, by simp⟩
  | cons a t ih =>
    cases n with
    | zero => exact ⟨0, by simp⟩
    | succ m =>
      obtain ⟨k, hk⟩ := ih m
      by_cases hpa : p a
      · exact ⟨k + 1, by simp [List.filter_cons, hpa, hk]⟩
      · exact ⟨k, by simp [List.filter_cons, hpa, hk]⟩

/-! ## Lemmas about per-location selection -/

theorem take_eq_self_of_short {α : Type} (l : List α) (n : ℕ)
    (h : (l.take n).length < n) : l.take n = l := by
  rw [List.length_take] at h
  exact List.take_of_length_le (by omega)

/-- In backends.py the backfill never fires: when fewer than top_n rows were
selected, the whole sorted bucket was selected, so every bucket row already
has its identity key among the selected keys and the remaining pool is empty.
Consequently per-location selection is exactly take top_n of the sort. -/
theorem selectLoc_eq_take (sortImpl : List Scored → List Scored)
    (sampler : ℕ → List Scored → List Scored) (top_n : ℕ) (scored : List Scored)
    (hperm : (sortImpl scored).Perm scored) :
    selectLoc sortImpl sampler top_n scored = (sortImpl scored).take top_n := by
  unfold selectLoc
  dsimp only
  split
  · rename_i hlt
    rw [if_neg]
    intro hne
    apply hne
    rw [List.filter_eq_nil_iff]
    intro r hr
    simp only [decide_eq_true_eq, Decidable.not_not]
    rw [take_eq_self_of_short _ _ hlt]
    exact List.mem_map_of_mem skey (hperm.mem_iff.mpr hr)
  · rfl

/-! ## Lemmas about deduplication -/

theorem dedupPlainAux_spec (seen : List IdKey) (rs : List Scored) :
    ((dedupPlainAux seen rs).map recKeyOut).Nodup
    ∧ (∀ k, k ∈ (dedupPlainAux seen rs).map recKeyOut ↔ (k ∈ rs.map skey ∧ k ∉ seen))
    ∧ ((dedupPlainAux seen rs).map recKeyOut).Sublist (rs.map skey)
    ∧ (∀ r ∈ dedupPlainAux seen rs, ∃ s, r = formatPlain s
        ∧ skey s ∉ seen ∧ rs.find? (fun x => decide (skey x = skey s)) = some s) := by
  induction rs generalizing seen with
  | nil => simp [dedupPlainAux]
  | cons x rest ih =>
    by_cases hx : skey x ∈ seen
    · simp only [dedupPlainAux, if_pos hx]
      obtain ⟨ih1, ih2, ih3, ih4⟩ := ih seen
      refine ⟨ih1, ?_, ?_, ?_⟩
      · intro k
        rw [ih2 k]
        constructor
        · rintro ⟨hk, hks⟩
          exact ⟨by rw [List.map_cons]; exact List.mem_cons_of_mem _ hk, hks⟩
        · rintro ⟨hk, hks⟩
          rw [List.map_cons] at hk
          rcases List.mem_cons.mp hk with h | h
          · exact absurd (h ▸ hx) hks
          · exact ⟨h, hks⟩
      · simp only [List.map_cons]
        exact ih3.cons _
      · intro r hr
        obtain ⟨s, hs1, hs2, hs3⟩ := ih4 r hr
        refine ⟨s, hs1, hs2, ?_⟩
        rw [List.find?_cons_of_neg]
        · exact hs3
        · simp only [decide_eq_true_eq]
          exact fun he => hs2 (he ▸ hx)
    · simp only [dedupPlainAux, if_neg hx]
      obtain ⟨ih1, ih2, ih3, ih4⟩ := ih (skey x :: seen)
      have hkey : recKeyOut (formatPlain x) = skey x := rfl
      refine ⟨?_, ?_, ?_, ?_⟩
      · simp only [List.map_cons, hkey]
        refine List.nodup_cons.mpr ⟨?_, ih1⟩
        intro hmem
        exact ((ih2 _).mp hmem).2 (List.mem_cons_self _ _)
      · intro k
        simp only [List.map_cons, hkey, List.mem_cons]
        constructor
        · rintro (h | h)
          · exact ⟨Or.inl h, h ▸ hx⟩
          · obtain ⟨h1, h2⟩ := (ih2 k).mp h
            exact ⟨Or.inr h1, fun hk => h2 (List.mem_cons_of_mem _ hk)⟩
        · rintro ⟨h1 | h1, h2⟩
          · exact Or.inl h1
          · by_cases hkx : k = skey x
            · exact Or.inl hkx
            · exact Or.inr ((ih2 k).mpr
                ⟨h1, fun hc => (List.mem_cons.mp hc).elim hkx h2⟩)
      · simp only [List.map_cons, hkey]
        exact ih3.cons₂ _
      · intro r hr
        rcases List.mem_cons.mp hr with h | h
        · refine ⟨x, h, hx, ?_⟩
          rw [List.find?_cons_of_pos]
          simp
        · obtain ⟨s, hs1, hs2, hs3⟩ := ih4 r h
          have hsx : skey s ≠ skey x :=
            fun he => hs2 (by rw [he]; exact List.mem_cons_self _ _)
          refine ⟨s, hs1, fun hc => hs2 (List.mem_cons_of_mem _ hc), ?_⟩
          rw [List.find?_cons_of_neg]
          · exact hs3
          · simp only [decide_eq_true_eq]
            exact fun he => hsx he.symm

theorem dedupSafeAux_length_le (seen : List IdKey) (rs : List Scored) :
    (dedupSafeAux seen rs).length ≤ rs.length := by
  induction rs generalizing seen with
  | nil => simp [dedupSafeAux]
  | cons x rest ih =>
    unfold dedupSafeAux
    split
    · exact (ih seen).trans (Nat.le_succ _)
    · exact Nat.succ_le_succ (ih _)

theorem dedupSafeAux_ne_nil (rs : List Scored) (h : rs ≠ []) :
    dedupSafeAux [] rs ≠ [] := by
  obtain ⟨x, t, rfl⟩ := List.exists_cons_of_ne_nil h
  simp [dedupSafeAux]

/-! ## Claim theorems -/

/-- C1: for every listing and every query, both scorers return a value of the
form k/1000 with 0 ≤ k ≤ 1000, i.e. a score in [0,1] rounded to 3 decimal
places.  The plain scorer has no clamp but its components are bounded by
0.6 + 0.4; the bulletproof scorer clamps explicitly. -/
theorem ClaimC1 (simFn : String → String → ℕ) (ss : List String) (sf : String)
    (row : Listing) (raw : SafeRow) :
    (∃ k : ℤ, 0 ≤ k ∧ k ≤ 1000 ∧ calculate_score simFn ss sf row = (k : ℚ) / 1000)
    ∧ (∃ k : ℤ, 0 ≤ k ∧ k ≤ 1000 ∧
        calculate_score_safely simFn ss sf raw = (k : ℚ) / 1000) := by
  constructor
  · unfold calculate_score
    apply round3_bounds
    · exact add_nonneg (skillComponent_nonneg _ _) (fieldComponent_nonneg _ _ _)
    · have h1 := skillComponent_le ss row.skills
      have h2 := fieldComponent_le simFn sf row.field
      linarith
  · unfold calculate_score_safely
    apply round3_bounds
    · exact le_max_left 0 _
    · exact max_le (by norm_num) (min_le_left _ _)

theorem toLowerStr_eq_empty_iff (s : String) : toLowerStr s = "" ↔ s = "" := by
  constructor
  · intro h
    have h2 : s.data.map Char.toLower = [] := by
      have h3 := congrArg String.data h
      simpa [toLowerStr] using h3
    exact String.ext (List.map_eq_nil_iff.mp h2)
  · intro h
    subst h
    rfl

/-- C2: the field component is 0 when the query field is empty; otherwise it
is a binary 0.4 decided by the case-insensitive similarity threshold 80.  The
bulletproof component additionally short-circuits an empty listing field to 0,
which agrees with the claim for every similarity function that scores an empty
string below the threshold against non-empty strings (fuzzywuzzy returns 0 on
any empty argument, and so does the in-repo fallback on unequal strings). -/
theorem ClaimC2 (simFn : String → String → ℕ) (sf lf : String) :
    fieldComponent simFn "" lf = 0
    ∧ fieldComponentSafe simFn "" (.fStr lf) = 0
    ∧ (sf ≠ "" → fieldComponent simFn sf lf
        = (if 80 ≤ simFn (toLowerStr lf) sf then 4 / 10 else 0))
    ∧ ((∀ s, s ≠ "" → simFn "" s < 80) → sf ≠ "" →
        fieldComponentSafe simFn sf (.fStr lf)
        = (if 80 ≤ simFn (toLowerStr lf) (toLowerStr sf) then 4 / 10 else 0)) := by
  refine ⟨by simp [fieldComponent], by simp [fieldComponentSafe], ?_, ?_⟩
  · intro h
    simp [fieldComponent, h]
  · intro hr h
    by_cases hlf : lf = ""
    · subst hlf
      have h2 : toLowerStr sf ≠ "" := fun hc => h ((toLowerStr_eq_empty_iff sf).mp hc)
      have h3 := hr (toLowerStr sf) h2
      have h4 : toLowerStr "" = "" := rfl
      simp only [fieldComponentSafe, safe_string_operation, h4]
      rw [if_pos h, if_neg (by simp), if_neg (by omega)]
    · have h2 : toLowerStr lf ≠ "" := fun hc => hlf ((toLowerStr_eq_empty_iff lf).mp hc)
      simp only [fieldComponentSafe, safe_string_operation]
      rw [if_pos h, if_pos h2]

theorem fallbackFuzz_empty_lt (s : String) (hs : s ≠ "") : fallbackFuzz "" s < 80 := by
  unfold fallbackFuzz
  rw [if_neg]
  · norm_num
  · intro hc
    exact hs ((toLowerStr_eq_empty_iff s).mp hc.symm)

unseal Rat.mul Rat.inv Rat.add Rat.sub in
/-- C2 witness: the spec scenario field="Data Science" vs listing field
"Data Sciences"-like match, instantiated with the in-repo fallback similarity. -/
theorem ClaimC2_witness :
    fieldComponent fallbackFuzz "data science" "Data Science" = 4 / 10
    ∧ fieldComponentSafe fallbackFuzz "data science" (.fStr "Data Science") = 4 / 10 := by
  have h := ClaimC2 fallbackFuzz "data science" "Data Science"
  constructor
  · rw [h.2.2.1 (by decide)]
    decide
  · rw [h.2.2.2 (fun s hs => fallbackFuzz_empty_lt s hs) (by decide)]
    decide

/-- C1 witness: concrete evaluation of both scorers on a concrete listing. -/
theorem ClaimC1_witness :
    (∃ k : ℤ, 0 ≤ k ∧ k ≤ 1000
      ∧ calculate_score simFn0 ["python"] "" cexA = (k : ℚ) / 1000)
    ∧ (∃ k : ℤ, 0 ≤ k ∧ k ≤ 1000
      ∧ calculate_score_safely simFn0 ["python"] "" cexA.toRaw = (k : ℚ) / 1000) :=
  ClaimC1 simFn0 ["python"] "" cexA cexA.toRaw

/-- C3 (amended): the bulletproof per-bucket ranking (pandas nlargest with
keep="first") is descending on match_score and stable: for any score value,
the rows carrying it appear in the ranked output as a prefix of their original
bucket order, so equal-scored pairs keep their relative catalog order.  The
plain backend offers no such guarantee (see the counterexample): its
sort_values call uses the default unstable quicksort, whose tie order is
unspecified. -/
theorem ClaimC3 (l : List Scored) (n : ℕ) (v : ℚ) :
    (nlargest n l).Pairwise (fun a b => b.2 ≤ a.2)
    ∧ ∃ k, (nlargest n l).filter (fun x => decide (x.2 = v))
        = (l.filter (fun x => decide (x.2 = v))).take k := by
  constructor
  · exact List.Pairwise.sublist (List.take_sublist _ _) (sortDescStable_pairwise l)
  · obtain ⟨k, hk⟩ := filter_take_prefix (fun x => decide (x.2 = v)) n (sortDescStable l)
    refine ⟨k, ?_⟩
    rw [nlargest, hk, filter_sortDescStable]

/-- C3 witness: the stability statement instantiated on a concrete tied bucket. -/
theorem ClaimC3_witness :
    (nlargest 1 [(cexA, 0), (cexB, 0)]).Pairwise (fun a b => b.2 ≤ a.2)
    ∧ ∃ k, (nlargest 1 [(cexA, 0), (cexB, 0)]).filter (fun x => decide (x.2 = 0))
        = (([(cexA, 0), (cexB, 0)] : List Scored).filter
            (fun x => decide (x.2 = 0))).take k :=
  ClaimC3 [(cexA, 0), (cexB, 0)] 1 0

unseal Rat.mul Rat.inv Rat.add Rat.sub in
/-- C3 counterexample: reversing ties is an admissible behaviour of the plain
backend's sort_values (a valid descending sort of the bucket), and under it
the ranked output of get_recommendations lists two equal-scored Boston rows in
the reverse of their catalog order, refuting the claimed stability guarantee. -/
theorem ClaimC3_counterexample :
    ValidSortDesc (revSortDesc cexBucket) cexBucket
    ∧ cexBucket.map (fun s => s.1.internship_title) = ["Intern A", "Intern B"]
    ∧ cexBucket.map (fun s => s.2) = [0, 0]
    ∧ (get_recommendations revSortDesc sampler0 simFn0 cexCatalog cexReq).map
        (fun r => r.internship_title) = ["Intern B", "Intern A"] :=
  ⟨⟨(sortDescStable_perm _).trans (List.reverse_perm _), sortDescStable_pairwise _⟩,
   by decide, by decide, by decide⟩

/-- C4 (amended): in the bulletproof backend an empty (cleaned) locations list
makes the engine score the whole catalog, take nlargest(2*top_n) and truncate
to top_n — net effect: the top_n best-scored rows of the whole catalog — and
a non-empty catalog always yields a non-empty recommendation list.  The plain
backend instead returns no recommendations at all when no location is given
(see the counterexample). -/
theorem ClaimC4 (simFn : String → String → ℕ) (catalog : List Listing)
    (req : SafeRequest) (hloc : req.locations.filter (fun s => s ≠ "") = []) :
    get_recommendations_safe simFn catalog req
      = dedupSafeAux [] ((sortDescStable (catalog.map (fun row =>
          (row, calculate_score_safely simFn
            ((req.skills.filter (fun s => s ≠ "")).map toLowerStr)
            (toLowerStr (toLowerStr req.field)) row.toRaw)))).take
          (clampTopN req.top_n).toNat)
    ∧ (catalog ≠ [] → get_recommendations_safe simFn catalog req ≠ []) := by
  have hmain : get_recommendations_safe simFn catalog req
      = dedupSafeAux [] ((sortDescStable (catalog.map (fun row =>
          (row, calculate_score_safely simFn
            ((req.skills.filter (fun s => s ≠ "")).map toLowerStr)
            (toLowerStr (toLowerStr req.field)) row.toRaw)))).take
          (clampTopN req.top_n).toNat) := by
    simp only [get_recommendations_safe, safeResults, hloc, List.map_nil, if_pos,
      nlargest, List.take_take]
    have h1 : (clampTopN req.top_n).toNat
        ⊓ ((clampTopN req.top_n).toNat ⊓ (clampTopN req.top_n).toNat * 2)
        = (clampTopN req.top_n).toNat := by omega
    have h2 : ((clampTopN req.top_n).toNat ⊓ (clampTopN req.top_n).toNat)
        ⊓ (clampTopN req.top_n).toNat * 2 = (clampTopN req.top_n).toNat := by omega
    rw [h1]
  refine ⟨hmain, ?_⟩
  intro hcat
  rw [hmain]
  apply dedupSafeAux_ne_nil
  intro hnil
  have hlen := congrArg List.length hnil
  rw [List.length_take, (sortDescStable_perm _).length_eq, List.length_map] at hlen
  have hc : catalog.length ≠ 0 := fun h => hcat (List.length_eq_zero.mp h)
  have htn : 1 ≤ (clampTopN req.top_n).toNat := by unfold clampTopN; omega
  simp only [List.length_nil] at hlen
  omega

/-- C4 witness: on a concrete non-empty catalog and a request without
locations the bulletproof engine returns a non-empty result. -/
theorem ClaimC4_witness :
    get_recommendations_safe simFn0 cexCatalog cexReqSNoLoc ≠ [] :=
  (ClaimC4 simFn0 cexCatalog cexReqSNoLoc rfl).2 (by simp [cexCatalog])

/-- C4 counterexample: the plain backend, on a non-empty catalog and a request
whose locations list is empty, returns an empty recommendation list — it does
not search the whole catalog. -/
theorem ClaimC4_counterexample :
    cexCatalog ≠ []
    ∧ get_recommendations sortDescStable sampler0 simFn0 cexCatalog cexReqNoLoc = [] :=
  ⟨by simp [cexCatalog], rfl⟩

/-- C5: per-location selection returns exactly min(top_n, bucket size) rows —
hence at most top_n and at least min(top_n, bucket size) — and every selected
row comes from the scored bucket, for every admissible sort implementation and
every sampler (in particular uniform random sampling without replacement).
The backfill pool is provably always empty, because a short selection already
contains the whole bucket, so the sampler is never consulted; the bulletproof
per-location nlargest obeys the same bounds. -/
theorem ClaimC5 (sortImpl : List Scored → List Scored)
    (sampler : ℕ → List Scored → List Scored) (top_n : ℕ) (scored : List Scored)
    (hsort : (sortImpl scored).Perm scored) (_hne : scored ≠ []) :
    (selectLoc sortImpl sampler top_n scored).length ≤ top_n
    ∧ min top_n scored.length ≤ (selectLoc sortImpl sampler top_n scored).length
    ∧ (∀ r ∈ selectLoc sortImpl sampler top_n scored, r ∈ scored)
    ∧ (nlargest top_n scored).length = min top_n scored.length
    ∧ ∀ r ∈ nlargest top_n scored, r ∈ scored := by
  have he := selectLoc_eq_take sortImpl sampler top_n scored hsort
  have hlen : (selectLoc sortImpl sampler top_n scored).length
      = min top_n scored.length := by
    rw [he, List.length_take, hsort.length_eq]
  refine ⟨?_, ?_, ?_, ?_, ?_⟩
  · rw [hlen]; exact min_le_left _ _
  · rw [hlen]
  · intro r hr
    rw [he] at hr
    exact hsort.mem_iff.mp ((List.take_sublist _ _).mem hr)
  · rw [nlargest, List.length_take, (sortDescStable_perm scored).length_eq]
  · intro r hr
    exact (sortDescStable_perm scored).mem_iff.mp ((List.take_sublist _ _).mem hr)

/-- C5 witness: the selection bounds instantiated on a concrete two-row bucket
with the stable sort and the take-first sampler. -/
theorem ClaimC5_witness :
    (selectLoc sortDescStable sampler0 2 [(cexA, 1), (cexB, 0)]).length ≤ 2
    ∧ min 2 ([(cexA, 1), (cexB, 0)] : List Scored).length
        ≤ (selectLoc sortDescStable sampler0 2 [(cexA, 1), (cexB, 0)]).length
    ∧ (∀ r ∈ selectLoc sortDescStable sampler0 2 [(cexA, 1), (cexB, 0)],
        r ∈ ([(cexA, 1), (cexB, 0)] : List Scored))
    ∧ (nlargest 2 [(cexA, 1), (cexB, 0)]).length
        = min 2 ([(cexA, 1), (cexB, 0)] : List Scored).length
    ∧ ∀ r ∈ nlargest 2 [(cexA, 1), (cexB, 0)],
        r ∈ ([(cexA, 1), (cexB, 0)] : List Scored) :=
  ClaimC5 sortDescStable sampler0 2 [(cexA, 1), (cexB, 0)]
    (sortDescStable_perm _) (by simp)

/-- C6 (amended): the plain deduplication is exactly as the claim states: the
output keys are exactly the distinct keys of the accumulator, each output
record is the formatted first occurrence of its key, and the output preserves
arrival order (its key sequence is a subsequence of the accumulator key
sequence).  The bulletproof backend violates the claim because it deduplicates
only results[:top_n] (see the counterexample). -/
theorem ClaimC6 (rs : List Scored) :
    ((dedupPlainAux [] rs).map recKeyOut).Nodup
    ∧ (∀ k, k ∈ (dedupPlainAux [] rs).map recKeyOut ↔ k ∈ rs.map skey)
    ∧ ((dedupPlainAux [] rs).map recKeyOut).Sublist (rs.map skey)
    ∧ (∀ r ∈ dedupPlainAux [] rs, ∃ s, r = formatPlain s
        ∧ rs.find? (fun x => decide (skey x = skey s)) = some s) := by
  obtain ⟨h1, h2, h3, h4⟩ := dedupPlainAux_spec [] rs
  refine ⟨h1, ?_, h3, ?_⟩
  · intro k
    rw [h2 k]
    simp
  · intro r hr
    obtain ⟨s, hs1, _, hs3⟩ := h4 r hr
    exact ⟨s, hs1, hs3⟩

/-- C6 witness: the dedup characterization instantiated on a concrete
accumulator containing a duplicated key. -/
theorem ClaimC6_witness :
    ((dedupPlainAux [] [(cexA, 0), (cexA, 0), (cexB, 0)]).map recKeyOut).Nodup :=
  (ClaimC6 [(cexA, 0), (cexA, 0), (cexB, 0)]).1

unseal Rat.mul Rat.inv Rat.add Rat.sub in
/-- C6 counterexample: in the bulletproof backend with two requested locations
and top_n = 1, the accumulator holds two distinct identity keys but the
deduplicated output holds only the first one — the claim that the output has
one entry for EVERY key present in the accumulator fails, because dedup runs
on results[:top_n]. -/
theorem ClaimC6_counterexample :
    (safeResults simFn0 cexCatalogS cexReqS).map skey
      = [("Acme", "Intern A", "Boston"), ("Acme", "Intern D", "Denver")]
    ∧ (get_recommendations_safe simFn0 cexCatalogS cexReqS).map recKeyOut
      = [("acme", "intern a", "boston")] :=
  ⟨by decide, by decide⟩

/-- C7 (amended): the bulletproof backend clamps top_n into [1, 20] before
selection (an in-range top_n passes through unchanged) and its final output
never exceeds 20 records.  The plain backend performs no clamping and honours
out-of-range values as-is (see the counterexample). -/
theorem ClaimC7 (n : ℤ) (simFn : String → String → ℕ) (catalog : List Listing)
    (req : SafeRequest) :
    1 ≤ clampTopN n ∧ clampTopN n ≤ 20
    ∧ (1 ≤ n → n ≤ 20 → clampTopN n = n)
    ∧ (get_recommendations_safe simFn catalog req).length ≤ 20 := by
  refine ⟨?_, ?_, ?_, ?_⟩
  · unfold clampTopN; omega
  · unfold clampTopN; omega
  · intro h1 h2; unfold clampTopN; omega
  · unfold get_recommendations_safe
    refine ((dedupSafeAux_length_le _ _).trans (List.length_take_le _ _)).trans ?_
    unfold clampTopN
    omega

/-- C7 witness: an in-range top_n of 7 is preserved by the clamp, and a
concrete bulletproof run stays within the 20-record bound. -/
theorem ClaimC7_witness :
    1 ≤ clampTopN 7 ∧ clampTopN 7 ≤ 20 ∧ clampTopN 7 = 7
    ∧ (get_recommendations_safe simFn0 cexCatalogS cexReqS).length ≤ 20 :=
  ⟨(ClaimC7 7 simFn0 cexCatalogS cexReqS).1,
   (ClaimC7 7 simFn0 cexCatalogS cexReqS).2.1,
   (ClaimC7 7 simFn0 cexCatalogS cexReqS).2.2.1 (by decide) (by decide),
   (ClaimC7 7 simFn0 cexCatalogS cexReqS).2.2.2⟩

unseal Rat.mul Rat.inv Rat.add Rat.sub in
/-- C7 counterexample: the plain backend honours top_n = 21 un-clamped: on a
21-row single-location catalog it returns 21 recommendations, more than the
claimed upper bound of 20. -/
theorem ClaimC7_counterexample :
    20 < req21.top_n
    ∧ (get_recommendations sortDescStable sampler0 simFn0 catalog21 req21).length
      = 21 :=
  ⟨by decide, by decide⟩

/-- C8 (amended): the bulletproof scorer is total — scoring a batch produces
one score per row, every score lies in [0,1] even on malformed rows, and a
malformed (non-list, non-string) skills cell contributes a zero skill
component.  The plain scorer lacks this protection: a row whose field cell is
not a string raises and aborts the whole batch (see the counterexample). -/
theorem ClaimC8 (simFn : String → String → ℕ) (ss : List String) (sf : String)
    (rows : List SafeRow) :
    (rows.map (calculate_score_safely simFn ss sf)).length = rows.length
    ∧ (∀ q ∈ rows.map (calculate_score_safely simFn ss sf), 0 ≤ q ∧ q ≤ 1)
    ∧ skillComponentSafe ss .sOther = 0 := by
  refine ⟨List.length_map _ _, ?_, ?_⟩
  · intro q hq
    obtain ⟨r, _, hq2⟩ := List.mem_map.mp hq
    rw [← hq2]
    unfold calculate_score_safely
    apply round3_mem_unit
    · exact le_max_left 0 _
    · exact max_le zero_le_one (min_le_left _ _)
  · unfold skillComponentSafe
    split
    · dsimp only
      split
      · simp [matchCount, parseRowSkills]
      · rfl
    · rfl

/-- C8 witness: the bulletproof scorer yields an in-range score on a row whose
field and skills cells are both malformed. -/
theorem ClaimC8_witness :
    0 ≤ calculate_score_safely simFn0 ["python"] "data" ⟨.fNum 3, .sOther⟩
    ∧ calculate_score_safely simFn0 ["python"] "data" ⟨.fNum 3, .sOther⟩ ≤ 1 :=
  (ClaimC8 simFn0 ["python"] "data" [⟨.fNum 3, .sOther⟩]).2.1 _ (by simp)

unseal Rat.mul Rat.inv Rat.add Rat.sub in
/-- C8 counterexample: in the plain backend a single row with a numeric field
cell aborts the whole scoring batch (the good row alone scores fine, its score
0.6 coming from the full skill match), instead of scoring 0 and continuing. -/
theorem ClaimC8_counterexample :
    scoreBatchPlain simFn0 ["python"] "data science" [goodRow] = Except.ok [3 / 5]
    ∧ scoreBatchPlain simFn0 ["python"] "data science" [goodRow, badRow]
      = Except.error () :=
  ⟨rfl, rfl⟩

/-- C9 (amended): the bulletproof loader never fails: a missing or unreadable
catalog file falls back to the 50-row synthetic mock catalog, whose rows all
normalize to listings with non-empty skill sets.  The plain backend reads the
CSV unguarded at import time and a missing file raises out of the module (see
the counterexample). -/
theorem ClaimC9 :
    load_data_safely CsvRead.missing = create_mock_data
    ∧ load_data_safely CsvRead.corrupt = create_mock_data
    ∧ create_mock_data.length = 50
    ∧ ((create_mock_data.map normalizeRow).all (fun r => !r.skills.isEmpty)) = true :=
  ⟨rfl, rfl, rfl, by decide⟩

/-- C9 counterexample: the plain module-level catalog read raises when the
file is missing; nothing catches it, so the process dies instead of falling
back. -/
theorem ClaimC9_counterexample : loadPlain CsvRead.missing = Except.error () := rfl

theorem plainLoop_sampler_indep (sortImpl : List Scored → List Scored)
    (hsort : ∀ l, (sortImpl l).Perm l)
    (s1 s2 : ℕ → List Scored → List Scored) (simFn : String → String → ℕ)
    (catalog : List Listing) (ss : List String) (sf : String) (top_n : ℕ)
    (locs : List String) (acc : List Scored) :
    plainLoop sortImpl s1 simFn catalog ss sf top_n locs acc
      = plainLoop sortImpl s2 simFn catalog ss sf top_n locs acc := by
  induction locs generalizing acc with
  | nil => rfl
  | cons loc rest ih =>
    unfold plainLoop
    dsimp only
    split
    · exact ih acc
    · rw [selectLoc_eq_take sortImpl s1 top_n _ (hsort _),
        selectLoc_eq_take sortImpl s2 top_n _ (hsort _)]
      exact ih _

/-- C10: the plain engine is a pure function of its inputs whose output does
not depend on the sampler at all: two runs with the same sort implementation
and arbitrarily different samplers (arbitrarily different ambient random
states) produce identical output, because the backfill pool is always empty
and the sampler is never consulted.  In particular two runs with identical
input and the same random state coincide, and no global random state is read
or mutated.  The bulletproof engine contains no sampling to begin with. -/
theorem ClaimC10 (sortImpl : List Scored → List Scored)
    (hsort : ∀ l, (sortImpl l).Perm l)
    (s1 s2 : ℕ → List Scored → List Scored) (simFn : String → String → ℕ)
    (catalog : List Listing) (req : RecommendationRequest) :
    get_recommendations sortImpl s1 simFn catalog req
      = get_recommendations sortImpl s2 simFn catalog req := by
  unfold get_recommendations
  exact congrArg (dedupPlainAux [])
    (plainLoop_sampler_indep sortImpl hsort s1 s2 simFn catalog _ _ _ _ _)

/-- C10 witness: a concrete run with the take-first sampler and a concrete run
with the take-last sampler coincide. -/
theorem ClaimC10_witness :
    get_recommendations sortDescStable sampler0 simFn0 cexCatalog cexReq
      = get_recommendations sortDescStable samplerRev simFn0 cexCatalog cexReq :=
  ClaimC10 sortDescStable sortDescStable_perm sampler0 samplerRev simFn0
    cexCatalog cexReq

end SkillFit
